import Mathlib

/-!
Verification of the win-go ensemble prediction core.

Shallow embedding of the repository prediction core:
  - kbt_models.js      : KBTModel (self-learning wrapper, lines 197-243) and the
                         insufficient-input guard of enhancedTrendAnalysis (lines 15-18);
  - ai_models.js       : AIModel (self-learning wrapper, lines 203-238);
  - model_manager.js   : ModelManager predict / learn / learnMultiple (ES module
                         version, lines 20-253);
  - prediction_helpers.js : calculateConsensusStrength, analyzePatternOverlap,
                         assessModelReliability, calculateEnhancedConfidence
                         (lines 141-178).

Numbers are modelled by the rationals.  The JavaScript built-in Math.pow is not
source code of this repository; every statement about the weight update is
therefore parameterised by an arbitrary function pow : Q -> Q -> Q standing for
Math.pow, and the theorems hold for every such function.  The JavaScript
Math.round is floor (x + 1/2), which agrees with Math.round on every rational.
The heuristic signal providers (streak/alternation/... scorers) are declared
out of scope by the specification; the manager-level embedding therefore takes
the predict function of each model as an opaque function, with a thrown
exception modelled by Except.error and a nullish result by Except.ok none.
-/

/-- JavaScript `x || d` on numbers: 0 falls back to the default. -/
def jsOr (x d : ℚ) : ℚ := if x = 0 then d else x

/-- JavaScript `s || t` on strings: the empty string falls back to the default. -/
def jsOrS (s t : String) : String := if s = "" then t else s

/-- JavaScript Math.round: round half towards positive infinity. -/
def jsRound (q : ℚ) : ℤ := ⌊q + 1/2⌋

/-- JavaScript `[...new Set(l)]`: deduplicate keeping first occurrences in order. -/
def jsDedup (l : List String) : List String :=
  l.foldl (fun acc a => if a ∈ acc then acc else acc ++ [a]) []

def sBIG : String := "BIG"
def sSMALL : String := "SMALL"
def sUNKNOWN : String := "UNKNOWN"
def sNoModels : String := "no-models"
def sFallbackLogic : String := "fallback-low-consensus-bias"
def sFallback : String := "fallback"
def sEnhanced : String := "enhanced_ensemble"
def sEnhHead : String := "ENHANCED_ENSEMBLE: "
def sPlus : String := "+"
def sColon : String := ":"
def sModel : String := "model"
def sConsensusTag : String := "Consensus_"
def sPatternTag : String := "PatternMatch_"
def sKBT : String := "KBT"
def sKBTName : String := "KBT Ultralogic"
def sAI : String := "AI_FLONZA"
def sAIName : String := "FLONZA_V4_HYBRID"
def s8 : String := "8"

/-- One historical event (kbt_models.js / model_manager.js read `resultType`;
`number` and `createTime` are carried for fidelity; a missing or falsy
createTime is `none`). -/
structure Event where
  resultType : String
  number : ℚ
  createTime : Option ℕ
deriving DecidableEq

/-- A prediction signal `{prediction, confidence, patterns, logic}` as consumed
by the manager.  `patterns` is read everywhere through `|| []`, so a missing
patterns field is represented by `[]`; `logic` is read through the fallback
`|| 'model'`, so a missing logic field is `none`. -/
structure Signal where
  prediction : String
  confidence : ℚ
  patterns : List String
  logic : Option String
deriving DecidableEq

/-- Mutable learning state shared by KBTModel (kbt_models.js lines 197-211) and
AIModel (ai_models.js lines 203-217): id, name, adaptive weight, rolling
outcome history (1/0), win/loss counters and the EMA-accuracy configuration. -/
structure LearnState where
  id : String
  name : String
  weight : ℚ
  history : List ℕ
  wins : ℕ
  losses : ℕ
  lookback : ℕ
  emaAccuracy : ℚ
  emaAlpha : ℚ
  minWeight : ℚ
  maxWeight : ℚ
  decay : ℚ
deriving DecidableEq

/-- The record returned by `learn`: `{ wins, losses, weight, emaAccuracy }`. -/
structure LearnResult where
  wins : ℕ
  losses : ℕ
  weight : ℚ
  emaAccuracy : ℚ
deriving DecidableEq

/-- Constructor state of `new KBTModel` (kbt_models.js lines 198-211). -/
def kbtInit : LearnState :=
  ⟨sKBT, sKBTName, 1, [], 0, 0, 200, 1/2, 1/20, 1/5, 3, 999/1000⟩

/-- Constructor state of `new AIModel` (ai_models.js lines 204-217). -/
def aiInit : LearnState :=
  ⟨sAI, sAIName, 1, [], 0, 0, 200, 1/2, 1/20, 1/5, 3, 999/1000⟩

/-- KBTModel.learn (kbt_models.js lines 221-242).  `optLr` models the options
object: `some x` when the lr option is the number `x`, `none` when absent.
`pow` stands for the JavaScript built-in Math.pow. -/
def kbtLearn (pow : ℚ → ℚ → ℚ) (st : LearnState) (wasWin : Bool)
    (optLr : Option ℚ) : LearnState × LearnResult :=
  let v : ℕ := if wasWin then 1 else 0
  let h1 := st.history ++ [v]
  let h2 := if st.lookback < h1.length then h1.drop 1 else h1
  let w := if wasWin then st.wins + 1 else st.wins
  let l := if wasWin then st.losses else st.losses + 1
  let total := w + l
  let instantAcc : ℚ := if 0 < total then (w : ℚ) / (total : ℚ) else 1/2
  let ema := st.emaAccuracy * (1 - st.emaAlpha) + instantAcc * st.emaAlpha
  let advantage := ema - 1/2
  let delta := advantage * (1/2)
  let lr : ℚ :=
    match optLr with
    | some x => max (1/10) x
    | none => 1
  let wt := max st.minWeight (min st.maxWeight
    (st.weight * pow st.decay lr + (1 + delta) * lr))
  (⟨st.id, st.name, wt, h2, w, l, st.lookback, ema, st.emaAlpha,
    st.minWeight, st.maxWeight, st.decay⟩,
   ⟨w, l, wt, ema⟩)

/-- AIModel.learn (ai_models.js lines 224-237).  The second argument is read
through the arguments object: `argLr = some (some x)` models a second argument
that is an object whose lr field is the number `x`; `some none` an object
without a numeric lr; `none` no second argument at all. -/
def aiLearn (pow : ℚ → ℚ → ℚ) (st : LearnState) (wasWin : Bool)
    (argLr : Option (Option ℚ)) : LearnState × LearnResult :=
  let v : ℕ := if wasWin then 1 else 0
  let h1 := st.history ++ [v]
  let h2 := if st.lookback < h1.length then h1.drop 1 else h1
  let w := if wasWin then st.wins + 1 else st.wins
  let l := if wasWin then st.losses else st.losses + 1
  let total := w + l
  let instantAcc : ℚ := if 0 < total then (w : ℚ) / (total : ℚ) else 1/2
  let ema := st.emaAccuracy * (1 - st.emaAlpha) + instantAcc * st.emaAlpha
  let advantage := ema - 1/2
  let delta := advantage * (1/2)
  let lr : ℚ :=
    match argLr with
    | some (some x) => max (1/10) x
    | some none => 1
    | none => 1
  let wt := max st.minWeight (min st.maxWeight
    (st.weight * pow st.decay lr + (1 + delta) * lr))
  (⟨st.id, st.name, wt, h2, w, l, st.lookback, ema, st.emaAlpha,
    st.minWeight, st.maxWeight, st.decay⟩,
   ⟨w, l, wt, ema⟩)

/-- A learn trajectory of KBTModel from its constructor state: one entry per
learn call. -/
def kbtRun (pow : ℚ → ℚ → ℚ) (calls : List (Bool × Option ℚ)) : LearnState :=
  calls.foldl (fun st c => (kbtLearn pow st c.1 c.2).1) kbtInit

/-- A learn trajectory of AIModel from its constructor state. -/
def aiRun (pow : ℚ → ℚ → ℚ) (calls : List (Bool × Option (Option ℚ))) : LearnState :=
  calls.foldl (fun st c => (aiLearn pow st c.1 c.2).1) aiInit

/-- The insufficient-input fallback signal of enhancedTrendAnalysis
(kbt_models.js line 17): `{ prediction: "BIG", confidence: 60, logic: 8,
patterns: ["fallback"] }`. -/
def kbtFallbackSignal : Signal := ⟨sBIG, 60, [sFallback], some s8⟩

variable {Opt : Type}

/-- enhancedTrendAnalysis (kbt_models.js lines 15-121).  The input-sufficiency
guard of lines 16-18 is translated literally: a non-array history (`none`) or a
history shorter than 3 yields the fallback signal.  The heuristic body past the
guard (lines 19-120: streak/alternation/mirror/fibonacci/... scoring), which
the specification declares an out-of-scope black-box signal provider, is the
opaque parameter `body`; it is only reached when the guard passes. -/
def enhancedTrendAnalysis (body : List Event → Opt → Signal)
    (hist : Option (List Event)) (o : Opt) : Signal :=
  match hist with
  | none => kbtFallbackSignal
  | some h => if h.length < 3 then kbtFallbackSignal else body h o

/-- The signal of KBTModel.predict with the model metadata attached
(kbt_models.js lines 213-218). -/
structure MetaSignal where
  sig : Signal
  modelId : String
  modelName : String
  modelWeight : ℚ
deriving DecidableEq

/-- KBTModel.predict (kbt_models.js lines 213-218): call enhancedTrendAnalysis
and spread the model metadata on top of the result. -/
def kbtPredict (body : List Event → Opt → Signal) (st : LearnState)
    (hist : Option (List Event)) (o : Opt) : MetaSignal :=
  ⟨enhancedTrendAnalysis body hist o, st.id, st.name, st.weight⟩

/-- A model as seen by ModelManager.predict: its identity, the learning-state
fields the manager reads (weight, emaAccuracy) or must leave untouched (wins,
losses, outcomes), and its predict function.  A throwing predict is
`Except.error ()`; a nullish return is `Except.ok none`. -/
structure MgrModel (Opt : Type) where
  id : String
  name : String
  weight : ℚ
  emaAccuracy : ℚ
  wins : ℕ
  losses : ℕ
  outcomes : List ℕ
  predictFn : Option (List Event) → Opt → Except Unit (Option Signal)

/-- One entry of the preds array of ModelManager.predict: the model, its
signal and the score `confidence * weight`. -/
structure ScoredPred (Opt : Type) where
  model : MgrModel Opt
  p : Signal
  score : ℚ

/-- The neutral signal `{ prediction: 'BIG', confidence: 50 }` substituted by
ModelManager.predict when the predict call of a model throws or returns a
nullish value (model_manager.js lines 79 and 84). -/
def neutralSignal : Signal := ⟨sBIG, 50, [], none⟩

/-- The body of the models.map of ModelManager.predict (model_manager.js
lines 77-86): obtain the signal of the model (substituting the neutral signal
on a throw or nullish return) and score it by
`(p.confidence || 50) * (m.weight || 1)`. -/
def scorePred (hist : Option (List Event)) (o : Opt) (m : MgrModel Opt) : ScoredPred Opt :=
  match m.predictFn hist o with
  | Except.error _ => ⟨m, neutralSignal, 50 * jsOr m.weight 1⟩
  | Except.ok po =>
    let p := po.getD neutralSignal
    ⟨m, p, jsOr p.confidence 50 * jsOr m.weight 1⟩

/-- Stable insertion used to model `preds.sort((a, b) => b.score - a.score)`:
an element is placed before the first strictly smaller score and after equal
scores, which is exactly the stable descending order produced by the
JavaScript sort. -/
def insertDesc (a : ScoredPred Opt) : List (ScoredPred Opt) → List (ScoredPred Opt)
  | [] => [a]
  | b :: l => if b.score ≤ a.score then a :: b :: l else b :: insertDesc a l

/-- `preds.sort((a, b) => b.score - a.score)` (model_manager.js line 89):
stable sort by score, descending. -/
def sortByScoreDesc : List (ScoredPred Opt) → List (ScoredPred Opt)
  | [] => []
  | a :: l => insertDesc a (sortByScoreDesc l)

/-- Result of calculateConsensusStrength. -/
structure CS where
  agreement : ℚ
  prediction : String

/-- calculateConsensusStrength (prediction_helpers.js lines 141-149):
majority agreement fraction and majority category.  Only called with at least
two predictions, so the division by `total` is safe. -/
def calculateConsensusStrength (preds : List (ScoredPred Opt)) : CS :=
  let total := preds.length
  let bigVotes := (preds.filter (fun x => x.p.prediction = sBIG)).length
  ⟨((max bigVotes (total - bigVotes) : ℕ) : ℚ) / (total : ℚ),
   if ((total : ℚ) / 2 < (bigVotes : ℚ)) then sBIG else sSMALL⟩

/-- The score of analyzePatternOverlap (prediction_helpers.js lines 151-159):
`1 - distinct/total` over all pattern tags.  With no tags at all the JavaScript
value is NaN (0/0), which fails every comparison; that case is `none`. -/
def analyzePatternOverlap (preds : List (ScoredPred Opt)) : Option ℚ :=
  let all := preds.flatMap (fun x => x.p.patterns)
  if all.length = 0 then none
  else some (1 - ((jsDedup all).length : ℚ) / (all.length : ℚ))

/-- assessModelReliability (prediction_helpers.js lines 172-178) read at key
`id`: `min(1, (weight || 0.5) * (emaAccuracy || 0.5) * 2)` of the last
prediction whose model has that id (later assignments overwrite earlier ones).
An id absent from the map would be undefined in JavaScript; it is never read. -/
def relLookup (preds : List (ScoredPred Opt)) (id : String) : ℚ :=
  match (preds.filter (fun x => x.model.id = id)).getLast? with
  | some x => min 1 (jsOr x.model.weight (1/2) * jsOr x.model.emaAccuracy (1/2) * 2)
  | none => 0

/-- The baseConfidence of calculateEnhancedConfidence (prediction_helpers.js
lines 164-166): sum of reliability-scaled confidences divided by the number of
predictions. -/
def enhancedBase (preds : List (ScoredPred Opt)) : ℚ :=
  (preds.map (fun x => x.p.confidence * relLookup preds x.model.id)).sum /
    ((preds.length : ℕ) : ℚ)

/-- The enhancementFactor of calculateEnhancedConfidence (prediction_helpers.js
line 168). -/
def enhanceFactor (ag s : ℚ) : ℚ := min (13/10) (1 + ag * (1/5) + s * (1/10))

/-- calculateEnhancedConfidence (prediction_helpers.js lines 161-170):
`Math.min(92, Math.round(baseConfidence * enhancementFactor))`. -/
def calculateEnhancedConfidence (preds : List (ScoredPred Opt)) (ag s : ℚ) : ℤ :=
  min 92 (jsRound (enhancedBase preds * enhanceFactor ag s))

/-- One entry of the contributing array of a decision.  `reliability` is only
present on the consensus path (`none` models the absent field elsewhere). -/
structure Contributor where
  id : String
  name : String
  weight : ℚ
  prediction : String
  confidence : ℚ
  reliability : Option ℚ
deriving DecidableEq

/-- The decision object returned by ModelManager.predict.  `chosenModel` is
`none` for the JavaScript null of the empty-roster sentinel; `contributing` is
`none` where the JavaScript object has no contributing field at all (the
fallback-bias decision) and `some l` where it is an array. -/
structure Decision where
  prediction : String
  confidence : ℚ
  logic : String
  patterns : List String
  chosenModel : Option String
  contributing : Option (List Contributor)
deriving DecidableEq

/-- The consensus-path decision (model_manager.js lines 100-129). -/
def consensusDecision (preds : List (ScoredPred Opt)) (p0 p1 : ScoredPred Opt)
    (ag s : ℚ) (csPred : String) : Decision :=
  ⟨csPred,
   ((calculateEnhancedConfidence preds ag s : ℤ) : ℚ),
   sEnhHead ++ p0.model.id ++ sPlus ++ p1.model.id,
   jsDedup (p0.p.patterns ++ p1.p.patterns ++
     [sConsensusTag ++ toString (jsRound (ag * 100)),
      sPatternTag ++ toString (jsRound (s * 100))]),
   some sEnhanced,
   some (preds.map (fun x =>
     ⟨jsOrS x.model.id x.model.name, x.model.name,
      x.model.weight * jsOr (relLookup preds x.model.id) 1,
      x.p.prediction, x.p.confidence, some (relLookup preds x.model.id)⟩))⟩

/-- The top-model decision of the two-or-more-models branch (model_manager.js
lines 157-166), with `conf` the possibly penalized confidence. -/
def topDecision (preds : List (ScoredPred Opt)) (p0 : ScoredPred Opt) (conf : ℚ) : Decision :=
  ⟨p0.p.prediction, conf,
   p0.model.id ++ sColon ++
     (match p0.p.logic with
      | some lg => jsOrS lg sModel
      | none => sModel),
   p0.p.patterns,
   some (jsOrS p0.model.id p0.model.name),
   some (preds.map (fun x =>
     ⟨jsOrS x.model.id x.model.name, x.model.name, x.model.weight,
      x.p.prediction, x.p.confidence, none⟩))⟩

/-- A fallback-bias decision (model_manager.js lines 146 and 149): note the
empty patterns and the absent contributing field. -/
def fallbackDecision (cat : String) (conf0 : ℚ) : Decision :=
  ⟨cat, max 55 ((jsRound (conf0 - 10) : ℤ) : ℚ), sFallbackLogic, [],
   some sFallback, none⟩

/-- The recent-history BIG bias of the fallback branch (model_manager.js lines
140-143): fraction of BIG among the first 20 events, 0.5 on an empty window;
a non-array history counts as empty. -/
def biasOf (hist : Option (List Event)) : ℚ :=
  let recent := (hist.getD []).take 20
  if recent.length = 0 then 1/2
  else ((recent.filter (fun r => r.resultType = sBIG)).length : ℚ) /
    ((recent.length : ℕ) : ℚ)

/-- The no-consensus branch for two or more models (model_manager.js lines
130-166): gap check, bias fallback, and the top-model decision with its
possibly penalized confidence. -/
def nonConsensusDecision (hist : Option (List Event)) (preds : List (ScoredPred Opt))
    (p0 p1 : ScoredPred Opt) : Decision :=
  if p0.score - p1.score < 15 then
    if 3/5 < biasOf hist then fallbackDecision sBIG p0.p.confidence
    else if biasOf hist < 2/5 then fallbackDecision sSMALL p0.p.confidence
    else topDecision preds p0 (max 50 ((jsRound (p0.p.confidence - 12) : ℤ) : ℚ))
  else topDecision preds p0 p0.p.confidence

/-- The pre-floor decision of the two-or-more-models branch (model_manager.js
lines 93-167).  The consensus guard `agreement > 0.75 && overlap.score > 0.6`
fails when the overlap score is NaN (`none`). -/
def managerFinal2 (hist : Option (List Event)) (preds : List (ScoredPred Opt))
    (p0 p1 : ScoredPred Opt) : Decision :=
  match analyzePatternOverlap preds with
  | some s =>
    if 3/4 < (calculateConsensusStrength preds).agreement ∧ 3/5 < s then
      consensusDecision preds p0 p1 (calculateConsensusStrength preds).agreement s
        (calculateConsensusStrength preds).prediction
    else nonConsensusDecision hist preds p0 p1
  | none => nonConsensusDecision hist preds p0 p1

/-- The minConfidence floor applied to the two-or-more-models decision
(model_manager.js line 170): raise a lower confidence to exactly the floor,
touch nothing else. -/
def floorDecision (mc : ℚ) (d : Decision) : Decision :=
  if d.confidence < mc then
    ⟨d.prediction, mc, d.logic, d.patterns, d.chosenModel, d.contributing⟩
  else d

/-- The single-model decision (model_manager.js lines 172-183). -/
def singleDecision (mc : ℚ) (top : ScoredPred Opt) : Decision :=
  ⟨top.p.prediction, max mc top.p.confidence,
   top.model.id ++ sColon ++
     (match top.p.logic with
      | some lg => jsOrS lg sModel
      | none => sModel),
   top.p.patterns,
   some top.model.id,
   some [⟨top.model.id, top.model.name, top.model.weight,
     top.p.prediction, top.p.confidence, none⟩]⟩

/-- The empty-roster sentinel (model_manager.js line 74). -/
def sentinelDecision (mc : ℚ) : Decision :=
  ⟨sUNKNOWN, max 50 (jsOr mc 50), sNoModels, [], none, some []⟩

/-- ModelManager.predict (model_manager.js lines 71-184) with the manager
minConfidence `mc` (65 in the constructor): score every model, sort by score
descending, then dispatch on the roster size. -/
def managerPredict (mc : ℚ) (models : List (MgrModel Opt))
    (hist : Option (List Event)) (o : Opt) : Decision :=
  match sortByScoreDesc (models.map (scorePred hist o)) with
  | [] => sentinelDecision mc
  | [top] => singleDecision mc top
  | p0 :: p1 :: rest => floorDecision mc (managerFinal2 hist (p0 :: p1 :: rest) p0 p1)

/-- A contribution record passed to learnMultiple:
`{ id, weight, prediction, confidence }` (the category field is not read). -/
structure Contrib where
  id : String
  weight : ℚ
  confidence : ℚ
deriving DecidableEq

/-- The score term `(c.weight || 1) * (c.confidence || 50)` of one contribution
(model_manager.js lines 205 and 211). -/
def contribTerm (c : Contrib) : ℚ := jsOr c.weight 1 * jsOr c.confidence 50

/-- The raw total of the contribution score terms (model_manager.js line 205,
before the `|| 1` guard). -/
def rawTotal (cs : List Contrib) : ℚ := (cs.map contribTerm).sum

/-- The totalScore of learnMultiple (model_manager.js line 205) including the
divide-by-zero guard `|| 1`. -/
def totalScore (cs : List Contrib) : ℚ := jsOr (rawTotal cs) 1

/-- The contribution share `(c.weight || 1) * (c.confidence || 50) / totalScore`
(model_manager.js line 211). -/
def shareOf (cs : List Contrib) (c : Contrib) : ℚ := contribTerm c / totalScore cs

/-- The context-scaled base learning rate `1 + Math.min(3, streak * 0.4)`
(model_manager.js lines 191 and 209). -/
def baseLR (streak : ℕ) : ℚ := 1 + min 3 ((streak : ℚ) * (2/5))

/-- The per-contributor learning rate `baseLR * (0.2 + 0.8 * share)`
(model_manager.js line 215). -/
def lrOf (cs : List Contrib) (streak : ℕ) (c : Contrib) : ℚ :=
  baseLR streak * (1/5 + (4/5) * shareOf cs c)

/-- `m.id || m.name`, the key used by the manager to look models up
(model_manager.js lines 187 and 212). -/
def idOrName (m : LearnState) : String := jsOrS m.id m.name

/-- Replace the first list element satisfying the predicate (the in-place
mutation of the object found by the find call of the manager). -/
def updateFirst (p : LearnState → Bool) (f : LearnState → LearnState) :
    List LearnState → List LearnState
  | [] => []
  | m :: ms => if p m then f m :: ms else m :: updateFirst p f ms

/-- One entry of the results array of learnMultiple:
`{ id: model.id, lr, res }` (model_manager.js line 217). -/
structure LMEntry where
  id : String
  lr : ℚ
  res : LearnResult
deriving DecidableEq

/-- The loop body of learnMultiple (model_manager.js lines 210-222): skip a
contribution whose id matches no model, otherwise learn on the matched model
with the share-scaled rate and record the result.  Both model classes define
the same learn update (see the refinement theorem below), translated here as
kbtLearn. -/
def lmStep (pow : ℚ → ℚ → ℚ) (wasWin : Bool) (cs : List Contrib) (streak : ℕ)
    (st : List LearnState × List LMEntry) (c : Contrib) :
    List LearnState × List LMEntry :=
  match st.1.find? (fun m => idOrName m = c.id) with
  | none => st
  | some m =>
    let lr2 := lrOf cs streak c
    let out := kbtLearn pow m wasWin (some lr2)
    (updateFirst (fun m2 => idOrName m2 = c.id) (fun _ => out.1) st.1,
     st.2 ++ [⟨m.id, lr2, out.2⟩])

/-- ModelManager.learnMultiple (model_manager.js lines 201-224): `none` for
the null returned on an empty contribution list, otherwise the updated models
and the results array. -/
def learnMultiple (pow : ℚ → ℚ → ℚ) (ms : List LearnState)
    (cs : List Contrib) (wasWin : Bool) (streak : ℕ) :
    Option (List LearnState × List LMEntry) :=
  if cs = [] then none
  else some (cs.foldl (lmStep pow wasWin cs streak) (ms, []))

/-- Definition following the words of the specification for the consensus
confidence (spec section 4.2): the weighted mean of the contributing
confidences weighted by reliability - that is, normalized by the total
reliability - scaled by the enhancement factor and capped at 92.  It is
compared against the source translation `calculateEnhancedConfidence`, which
divides by the number of models instead. -/
def specEnhancedConfidence (preds : List (ScoredPred Opt)) (ag s : ℚ) : ℚ :=
  let wmean := (preds.map (fun x => x.p.confidence * relLookup preds x.model.id)).sum /
    (preds.map (fun x => relLookup preds x.model.id)).sum
  min 92 ((jsRound (wmean * enhanceFactor ag s) : ℤ) : ℚ)

/-- A sample pow function used to instantiate the Math.pow parameter in
witnesses; every theorem below holds for an arbitrary pow. -/
def powSample : ℚ → ℚ → ℚ := fun a _ => a

/-- An arbitrary concrete heuristic body used to instantiate the out-of-scope
parameter of enhancedTrendAnalysis in closed statements; it is never reached
on insufficient input. -/
def bodySample : List Event → Unit → Signal := fun _ _ => neutralSignal

def evBIG : Event := ⟨sBIG, 0, none⟩
def evSMALL : Event := ⟨sSMALL, 0, none⟩

/-- Five events, 4 BIG then 1 SMALL: recent-window bias 0.8. -/
def hist4x1 : List Event := [evBIG, evBIG, evBIG, evBIG, evSMALL]

def sMA : String := "A"
def sMB : String := "B"
def sM1 : String := "M1"
def sM2 : String := "M2"
def sMT : String := "T"
def sP : String := "P"

def sigA70 : Signal := ⟨sBIG, 70, [], none⟩
def sigB60 : Signal := ⟨sSMALL, 60, [], none⟩

/-- Model A: always signals BIG with confidence 70, no patterns. -/
def mA : MgrModel Unit :=
  ⟨sMA, sMA, 1, 1/2, 0, 0, [], fun _ _ => Except.ok (some sigA70)⟩

/-- Model B: always signals SMALL with confidence 60, no patterns. -/
def mB : MgrModel Unit :=
  ⟨sMB, sMB, 1, 1/2, 0, 0, [], fun _ _ => Except.ok (some sigB60)⟩

/-- A model whose predict always throws. -/
def mThrow : MgrModel Unit :=
  ⟨sMT, sMT, 1, 1/2, 0, 0, [], fun _ _ => Except.error ()⟩

def sig80a : Signal := ⟨sBIG, 80, [sP], none⟩
def sig80b : Signal := ⟨sBIG, 80, [sP, sP], none⟩

/-- Consensus-path model 1: BIG 80 with pattern P, emaAccuracy 0.25. -/
def m1c : MgrModel Unit :=
  ⟨sM1, sM1, 1, 1/4, 0, 0, [], fun _ _ => Except.ok (some sig80a)⟩

/-- Consensus-path model 2: BIG 80 with patterns P, P, emaAccuracy 0.25. -/
def m2c : MgrModel Unit :=
  ⟨sM2, sM2, 1, 1/4, 0, 0, [], fun _ _ => Except.ok (some sig80b)⟩

/-- The scored prediction of model A. -/
def predA : ScoredPred Unit := ⟨mA, sigA70, 70⟩

/-- The scored prediction of model B. -/
def predB : ScoredPred Unit := ⟨mB, sigB60, 60⟩

/-- The scored prediction of consensus model 1. -/
def predC1 : ScoredPred Unit := ⟨m1c, sig80a, 80⟩

/-- The scored prediction of consensus model 2. -/
def predC2 : ScoredPred Unit := ⟨m2c, sig80b, 80⟩

/-- A sample decision below the floor, used to witness the floor behaviour. -/
def dSample : Decision := ⟨sBIG, 60, sFallbackLogic, [], some sFallback, none⟩

/-- A model as seen by ModelManager.predict with the ambient clock made
explicit: predictFn additionally receives the Date.now() value the providers
observe during the call.  The repository providers read the clock through
`new Date(event.createTime || Date.now())` whenever an event lacks a truthy
createTime (analyzeTimingPatterns, prediction_helpers.js lines 52-65;
model3_manipulationDetector, ai_models.js lines 116-128). -/
structure MgrModelT (Opt : Type) where
  id : String
  name : String
  weight : ℚ
  emaAccuracy : ℚ
  wins : ℕ
  losses : ℕ
  outcomes : List ℕ
  predictFn : Option (List Event) → Opt → ℕ → Except Unit (Option Signal)

/-- Freeze the ambient clock of one predict call: the clockless view of a
clocked model.  All clock reads within a single call are modelled as
observing one common value, an assumption favourable to determinism; the
counterexample below shows that determinism across calls fails even so. -/
def atClock (now : ℕ) (m : MgrModelT Opt) : MgrModel Opt :=
  ⟨m.id, m.name, m.weight, m.emaAccuracy, m.wins, m.losses, m.outcomes,
   fun h o => m.predictFn h o now⟩

/-- ModelManager.predict with the ambient clock explicit: the clockless
translation applied to the roster with every provider clock read frozen at
the instant of the call. -/
def managerPredictT (mc : ℚ) (models : List (MgrModelT Opt))
    (hist : Option (List Event)) (o : Opt) (now : ℕ) : Decision :=
  managerPredict mc (models.map (atClock now)) hist o

/-- Clock-explicit predict as a state transition.  The source of predict
(model_manager.js lines 71-184) contains no assignment to any model field or
manager field, so the transition returns the model list unchanged along with
the decision. -/
def managerPredictST (mc : ℚ) (models : List (MgrModelT Opt))
    (hist : Option (List Event)) (o : Opt) (now : ℕ) :
    Decision × List (MgrModelT Opt) :=
  (managerPredictT mc models hist o now, models)

/-- `new Date(c || Date.now()).getTime()` for a stored createTime `c`: the
stored value when present, the ambient clock otherwise. -/
def jsGetTime (c : Option ℕ) (now : ℕ) : ℚ := ((c.getD now : ℕ) : ℚ)

/-- The consecutive timestamp differences of analyzeTimingPatterns
(prediction_helpers.js lines 53-58). -/
def timingIntervals (hist : List Event) (now : ℕ) : List ℚ :=
  (hist.zip hist.tail).map
    (fun pr => jsGetTime pr.2.createTime now - jsGetTime pr.1.createTime now)

/-- The stability score of analyzeTimingPatterns (prediction_helpers.js lines
52-65; the returned object carries it twice, as stability and as strength),
parameterised by the JavaScript built-in Math.sqrt.  The JavaScript NaN
outcomes are `none`: an empty interval list (history shorter than 2) makes
avg NaN and everything after it NaN; a zero avg with zero variance makes
sqrt(variance)/avg NaN; a zero avg with positive variance gives Infinity,
so min(1, Infinity) = 1 and the stability is 0. -/
def analyzeTimingStability (jsSqrt : ℚ → ℚ) (hist : List Event) (now : ℕ) : Option ℚ :=
  let intervals := timingIntervals hist now
  if intervals.length = 0 then none
  else
    let avg := intervals.sum / ((intervals.length : ℕ) : ℚ)
    let variance := (intervals.map (fun b => (b - avg) ^ 2)).sum / ((intervals.length : ℕ) : ℚ)
    if avg = 0 then
      if variance = 0 then none else some 0
    else some (1 - min 1 (jsSqrt variance / avg))

/-- A stand-in for the JavaScript built-in Math.sqrt, used to instantiate
concrete statements; it agrees with Math.sqrt at the two inputs the
counterexample evaluates (1000000 and 0). -/
def sqrtSample : ℚ → ℚ := fun q => if q = 1000000 then 1000 else 0

def evT1000 : Event := ⟨sBIG, 0, some 1000⟩

/-- An event with no truthy createTime: its timestamp reads the ambient clock. -/
def evTNone : Event := ⟨sBIG, 0, none⟩

def evT5000 : Event := ⟨sBIG, 0, some 5000⟩

/-- Three events whose middle createTime is missing, so its timestamp is the
ambient clock of the call. -/
def histTiming : List Event := [evT1000, evTNone, evT5000]

def sTM : String := "TM"

/-- A clocked provider whose confidence is an affine function of the
translated timing stability.  It stands in for the repository chain that
feeds analyzeTimingPatterns into signal confidences (kbt_models.js line 132:
neuralNetworkPrediction consumes the timing strength inside the
enhancedTrendAnalysis body); the clock read is the genuine translated
mechanism, while the surrounding float arithmetic of the full chain, which a
rational embedding cannot carry, is replaced by the affine map. -/
def mTiming : MgrModelT Unit :=
  ⟨sTM, sTM, 1, 1/2, 0, 0, [], fun h _ now => Except.ok (some
    ⟨sBIG, 50 + 40 * ((analyzeTimingStability sqrtSample (h.getD []) now).getD 0),
     [], none⟩)⟩

/-- A clocked model that ignores the clock: always BIG with confidence 70. -/
def mAT : MgrModelT Unit :=
  ⟨sMA, sMA, 1, 1/2, 0, 0, [], fun _ _ _ => Except.ok (some sigA70)⟩

/-- Claim C1: for every learn call with a numeric learning-rate multiplier of
at least 0.1 on a model carrying the constructor configuration, the successor
state is computed in the specified order: the binary outcome is appended to
the outcome history (oldest dropped beyond lookback 200), wins or losses is
incremented, the instant accuracy is wins/(wins+losses), the EMA accuracy
becomes ema*(1-1/20) + instant*(1/20), and the new weight is
clamp(weight * pow(0.999, lr) + (1 + (ema - 0.5) * 0.5) * lr, 0.2, 3.0),
where ema is the freshly updated value. -/
theorem kbt_learn_update_order (pow : ℚ → ℚ → ℚ) (st : LearnState) (wasWin : Bool) (lr : ℚ)
    (hlr : (1:ℚ)/10 ≤ lr) (ha : st.emaAlpha = 1/20) (hlb : st.lookback = 200)
    (hmin : st.minWeight = 1/5) (hmax : st.maxWeight = 3) (hdec : st.decay = 999/1000) :
    kbtLearn pow st wasWin (some lr) =
      (let v : ℕ := if wasWin then 1 else 0
       let h2 := if 200 < (st.history ++ [v]).length then (st.history ++ [v]).drop 1
         else st.history ++ [v]
       let w := if wasWin then st.wins + 1 else st.wins
       let l := if wasWin then st.losses else st.losses + 1
       let ema := st.emaAccuracy * (1 - 1/20) + ((w : ℚ) / ((w : ℚ) + (l : ℚ))) * (1/20)
       let wt := max (1/5) (min 3
         (st.weight * pow (999/1000) lr + (1 + (ema - 1/2) * (1/2)) * lr))
       (⟨st.id, st.name, wt, h2, w, l, st.lookback, ema, st.emaAlpha,
         st.minWeight, st.maxWeight, st.decay⟩,
        ⟨w, l, wt, ema⟩)) := by
  have h1 : max ((1:ℚ)/10) lr = lr := max_eq_right hlr
  cases wasWin
  · simp only [kbtLearn, ha, hlb, hmin, hmax, hdec, h1, Bool.false_eq_true, if_false]
    rw [if_pos (by omega : 0 < st.wins + (st.losses + 1))]
    push_cast
    rfl
  · simp only [kbtLearn, ha, hlb, hmin, hmax, hdec, h1, if_true]
    rw [if_pos (by omega : 0 < st.wins + 1 + st.losses)]
    push_cast
    rfl

/-- Witness for C1 at the constructor state with a win and lr = 1. -/
theorem kbt_learn_update_order_witness :
    ((1:ℚ)/10 ≤ 1 ∧ kbtInit.emaAlpha = 1/20 ∧ kbtInit.lookback = 200 ∧
     kbtInit.minWeight = 1/5 ∧ kbtInit.maxWeight = 3 ∧ kbtInit.decay = 999/1000) ∧
    kbtLearn powSample kbtInit true (some 1) =
      (let v : ℕ := if true then 1 else 0
       let h2 := if 200 < (kbtInit.history ++ [v]).length then (kbtInit.history ++ [v]).drop 1
         else kbtInit.history ++ [v]
       let w := if true then kbtInit.wins + 1 else kbtInit.wins
       let l := if true then kbtInit.losses else kbtInit.losses + 1
       let ema := kbtInit.emaAccuracy * (1 - 1/20) + ((w : ℚ) / ((w : ℚ) + (l : ℚ))) * (1/20)
       let wt := max (1/5) (min 3
         (kbtInit.weight * powSample (999/1000) 1 + (1 + (ema - 1/2) * (1/2)) * 1))
       (⟨kbtInit.id, kbtInit.name, wt, h2, w, l, kbtInit.lookback, ema, kbtInit.emaAlpha,
         kbtInit.minWeight, kbtInit.maxWeight, kbtInit.decay⟩,
        ⟨w, l, wt, ema⟩)) :=
  ⟨⟨by norm_num, rfl, rfl, rfl, rfl, rfl⟩,
   kbt_learn_update_order powSample kbtInit true 1 (by norm_num) rfl rfl rfl rfl rfl⟩

/-- The confidence after the floor is the maximum of the floor and the
computed confidence. -/
theorem floorDecision_confidence (mc : ℚ) (d : Decision) :
    (floorDecision mc d).confidence = max mc d.confidence := by
  unfold floorDecision
  split
  · next h => exact (max_eq_left (le_of_lt h)).symm
  · next h => exact (max_eq_right (not_lt.mp h)).symm

/-- The floor changes no field other than the confidence. -/
theorem floorDecision_fields (mc : ℚ) (d : Decision) :
    (floorDecision mc d).prediction = d.prediction ∧
    (floorDecision mc d).logic = d.logic ∧
    (floorDecision mc d).patterns = d.patterns ∧
    (floorDecision mc d).chosenModel = d.chosenModel ∧
    (floorDecision mc d).contributing = d.contributing := by
  unfold floorDecision
  split <;> exact ⟨rfl, rfl, rfl, rfl, rfl⟩

/-- Claim C2: for every history, options and roster (zero, one or many
models) the decision of ModelManager.predict has confidence at least the
default minConfidence 65; and the floor applied to the multi-model decision
raises a lower computed confidence to exactly the floor and never lowers a
higher one. -/
theorem manager_confidence_floor :
    (∀ (Opt : Type) (models : List (MgrModel Opt)) (hist : Option (List Event)) (o : Opt),
      (65 : ℚ) ≤ (managerPredict 65 models hist o).confidence) ∧
    (∀ (mc : ℚ) (d : Decision),
      (d.confidence < mc →
        floorDecision mc d =
          ⟨d.prediction, mc, d.logic, d.patterns, d.chosenModel, d.contributing⟩) ∧
      (mc ≤ d.confidence → floorDecision mc d = d)) := by
  constructor
  · intro Opt models hist o
    unfold managerPredict
    rcases hl : sortByScoreDesc (models.map (scorePred hist o)) with _ | ⟨p0, _ | ⟨p1, rest⟩⟩
    · simp [sentinelDecision, jsOr]
    · simp [singleDecision]
    · rw [floorDecision_confidence]
      exact le_max_left _ _
  · intro mc d
    constructor
    · intro h
      unfold floorDecision
      rw [if_pos h]
    · intro h
      unfold floorDecision
      rw [if_neg (not_lt.mpr h)]

/-- Witness for C2: a two-model roster, and a below-floor decision raised to
exactly the floor. -/
theorem manager_confidence_floor_witness :
    ((65:ℚ) ≤ (managerPredict 65 [mA, mB] (some hist4x1) ()).confidence) ∧
    (dSample.confidence < 65 ∧
     floorDecision 65 dSample =
       ⟨dSample.prediction, 65, dSample.logic, dSample.patterns,
        dSample.chosenModel, dSample.contributing⟩) :=
  ⟨manager_confidence_floor.1 Unit [mA, mB] (some hist4x1) (),
   by norm_num [dSample],
   (manager_confidence_floor.2 65 dSample).1 (by norm_num [dSample])⟩

/-- Configuration fields are untouched along any KBTModel learn trajectory. -/
theorem kbtFold_config (pow : ℚ → ℚ → ℚ) (calls : List (Bool × Option ℚ)) (st : LearnState) :
    ((calls.foldl (fun s c => (kbtLearn pow s c.1 c.2).1) st).minWeight = st.minWeight ∧
     (calls.foldl (fun s c => (kbtLearn pow s c.1 c.2).1) st).maxWeight = st.maxWeight) := by
  induction calls generalizing st with
  | nil => exact ⟨rfl, rfl⟩
  | cons c cs ih =>
    simp only [List.foldl_cons]
    exact ⟨((ih _).1).trans rfl, ((ih _).2).trans rfl⟩

/-- Configuration fields are untouched along any AIModel learn trajectory. -/
theorem aiFold_config (pow : ℚ → ℚ → ℚ) (calls : List (Bool × Option (Option ℚ))) (st : LearnState) :
    ((calls.foldl (fun s c => (aiLearn pow s c.1 c.2).1) st).minWeight = st.minWeight ∧
     (calls.foldl (fun s c => (aiLearn pow s c.1 c.2).1) st).maxWeight = st.maxWeight) := by
  induction calls generalizing st with
  | nil => exact ⟨rfl, rfl⟩
  | cons c cs ih =>
    simp only [List.foldl_cons]
    exact ⟨((ih _).1).trans rfl, ((ih _).2).trans rfl⟩

/-- Claim C3: after every nonempty finite sequence of learn calls (with
arbitrary learning rates and an arbitrary pow) starting from the constructor
state, the weight of the KBT model and of the AI model lies in
[minWeight, maxWeight] = [0.2, 3.0]. -/
theorem weight_bound_invariant (pow : ℚ → ℚ → ℚ)
    (kcalls : List (Bool × Option ℚ)) (acalls : List (Bool × Option (Option ℚ)))
    (hk : kcalls ≠ []) (ha : acalls ≠ []) :
    ((1:ℚ)/5 ≤ (kbtRun pow kcalls).weight ∧ (kbtRun pow kcalls).weight ≤ 3) ∧
    ((1:ℚ)/5 ≤ (aiRun pow acalls).weight ∧ (aiRun pow acalls).weight ≤ 3) := by
  constructor
  · rcases (List.eq_nil_or_concat kcalls) with h | ⟨l, c, h⟩
    · exact absurd h hk
    · subst h
      unfold kbtRun
      rw [List.concat_eq_append, List.foldl_append]
      have hcfg := kbtFold_config pow l kbtInit
      simp only [List.foldl_cons, List.foldl_nil]
      constructor
      · calc (1:ℚ)/5 = (l.foldl (fun s c => (kbtLearn pow s c.1 c.2).1) kbtInit).minWeight := by
              rw [hcfg.1]; rfl
          _ ≤ _ := le_max_left _ _
      · have h3 : (l.foldl (fun s c => (kbtLearn pow s c.1 c.2).1) kbtInit).minWeight = 1/5 := by
          rw [hcfg.1]; rfl
        have h4 : (l.foldl (fun s c => (kbtLearn pow s c.1 c.2).1) kbtInit).maxWeight = 3 := by
          rw [hcfg.2]; rfl
        show max _ (min _ _) ≤ 3
        rw [h3, h4]
        exact max_le (by norm_num) (min_le_left _ _)
  · rcases (List.eq_nil_or_concat acalls) with h | ⟨l, c, h⟩
    · exact absurd h ha
    · subst h
      unfold aiRun
      rw [List.concat_eq_append, List.foldl_append]
      have hcfg := aiFold_config pow l aiInit
      simp only [List.foldl_cons, List.foldl_nil]
      constructor
      · calc (1:ℚ)/5 = (l.foldl (fun s c => (aiLearn pow s c.1 c.2).1) aiInit).minWeight := by
              rw [hcfg.1]; rfl
          _ ≤ _ := le_max_left _ _
      · have h3 : (l.foldl (fun s c => (aiLearn pow s c.1 c.2).1) aiInit).minWeight = 1/5 := by
          rw [hcfg.1]; rfl
        have h4 : (l.foldl (fun s c => (aiLearn pow s c.1 c.2).1) aiInit).maxWeight = 3 := by
          rw [hcfg.2]; rfl
        show max _ (min _ _) ≤ 3
        rw [h3, h4]
        exact max_le (by norm_num) (min_le_left _ _)

/-- Witness for C3: a single winning learn call on each model. -/
theorem weight_bound_invariant_witness :
    (([((true : Bool), (none : Option ℚ))] : List (Bool × Option ℚ)) ≠ [] ∧
     ([((true : Bool), (none : Option (Option ℚ)))] : List (Bool × Option (Option ℚ))) ≠ []) ∧
    (((1:ℚ)/5 ≤ (kbtRun powSample [(true, none)]).weight ∧
      (kbtRun powSample [(true, none)]).weight ≤ 3) ∧
     ((1:ℚ)/5 ≤ (aiRun powSample [(true, none)]).weight ∧
      (aiRun powSample [(true, none)]).weight ≤ 3)) :=
  ⟨⟨by simp, by simp⟩,
   weight_bound_invariant powSample [(true, none)] [(true, none)] (by simp) (by simp)⟩

/-- Inserting into the score-sorted list adds one element. -/
theorem length_insertDesc (a : ScoredPred Opt) (l : List (ScoredPred Opt)) :
    (insertDesc a l).length = l.length + 1 := by
  induction l with
  | nil => rfl
  | cons b m ih =>
    unfold insertDesc
    split
    · rfl
    · simp only [List.length_cons, ih]

/-- Sorting by score preserves the length. -/
theorem length_sortByScoreDesc (l : List (ScoredPred Opt)) :
    (sortByScoreDesc l).length = l.length := by
  induction l with
  | nil => rfl
  | cons a m ih =>
    unfold sortByScoreDesc
    rw [length_insertDesc, ih]
    rfl

/-- A string containing the colon separator is never empty. -/
theorem append_colon_ne_empty (a b : String) : a ++ sColon ++ b ≠ "" := by
  intro h
  have h2 := congrArg String.length h
  simp only [String.length_append] at h2
  have h3 : sColon.length = 1 := rfl
  have h4 : ("" : String).length = 0 := rfl
  omega

/-- A string starting with the consensus logic head is never empty. -/
theorem enh_head_ne_empty (a b : String) : sEnhHead ++ a ++ sPlus ++ b ≠ "" := by
  intro h
  have h2 := congrArg String.length h
  simp only [String.length_append] at h2
  have h3 : sEnhHead.length = 19 := rfl
  have h4 : ("" : String).length = 0 := rfl
  have h5 : sPlus.length = 1 := rfl
  omega

/-- Metadata shape of the top-model decision. -/
theorem topDecision_meta (preds : List (ScoredPred Opt)) (p0 : ScoredPred Opt) (conf : ℚ) :
    (topDecision preds p0 conf).logic ≠ "" ∧
    (∀ l, (topDecision preds p0 conf).contributing = some l → l.length = preds.length) ∧
    (topDecision preds p0 conf).contributing ≠ none := by
  refine ⟨append_colon_ne_empty _ _, ?_, ?_⟩
  · intro l hlq
    simp only [topDecision, Option.some.injEq] at hlq
    rw [← hlq, List.length_map]
  · simp [topDecision]

/-- Metadata shape of the no-consensus decision: the fallback-bias branches
carry no contributors and empty patterns, the top-model branch carries one
contributor per prediction. -/
theorem nonConsensusDecision_meta (hist : Option (List Event)) (preds : List (ScoredPred Opt))
    (p0 p1 : ScoredPred Opt) :
    (nonConsensusDecision hist preds p0 p1).logic ≠ "" ∧
    (∀ l, (nonConsensusDecision hist preds p0 p1).contributing = some l →
      l.length = preds.length) ∧
    ((nonConsensusDecision hist preds p0 p1).contributing = none →
      (nonConsensusDecision hist preds p0 p1).patterns = [] ∧
      (nonConsensusDecision hist preds p0 p1).logic = sFallbackLogic ∧
      (nonConsensusDecision hist preds p0 p1).chosenModel = some sFallback) := by
  unfold nonConsensusDecision
  split
  · split
    · refine ⟨?_, ?_, ?_⟩
      · simp [fallbackDecision, sFallbackLogic]
      · intro l hlq
        simp [fallbackDecision] at hlq
      · exact fun _ => ⟨rfl, rfl, rfl⟩
    · split
      · refine ⟨?_, ?_, ?_⟩
        · simp [fallbackDecision, sFallbackLogic]
        · intro l hlq
          simp [fallbackDecision] at hlq
        · exact fun _ => ⟨rfl, rfl, rfl⟩
      · obtain ⟨t1, t2, t3⟩ := topDecision_meta preds p0
          (max 50 ((jsRound (p0.p.confidence - 12) : ℤ) : ℚ))
        exact ⟨t1, t2, fun h => absurd h t3⟩
  · obtain ⟨t1, t2, t3⟩ := topDecision_meta preds p0 p0.p.confidence
    exact ⟨t1, t2, fun h => absurd h t3⟩

/-- Metadata shape of the consensus decision. -/
theorem consensusDecision_meta (preds : List (ScoredPred Opt)) (p0 p1 : ScoredPred Opt)
    (ag s : ℚ) (csPred : String) :
    (consensusDecision preds p0 p1 ag s csPred).logic ≠ "" ∧
    (∀ l, (consensusDecision preds p0 p1 ag s csPred).contributing = some l →
      l.length = preds.length) ∧
    (consensusDecision preds p0 p1 ag s csPred).contributing ≠ none := by
  refine ⟨enh_head_ne_empty _ _, ?_, ?_⟩
  · intro l hlq
    simp only [consensusDecision, Option.some.injEq] at hlq
    rw [← hlq, List.length_map]
  · simp [consensusDecision]

/-- Metadata shape of the pre-floor multi-model decision. -/
theorem managerFinal2_meta (hist : Option (List Event)) (preds : List (ScoredPred Opt))
    (p0 p1 : ScoredPred Opt) :
    (managerFinal2 hist preds p0 p1).logic ≠ "" ∧
    (∀ l, (managerFinal2 hist preds p0 p1).contributing = some l →
      l.length = preds.length) ∧
    ((managerFinal2 hist preds p0 p1).contributing = none →
      (managerFinal2 hist preds p0 p1).patterns = [] ∧
      (managerFinal2 hist preds p0 p1).logic = sFallbackLogic ∧
      (managerFinal2 hist preds p0 p1).chosenModel = some sFallback) := by
  unfold managerFinal2
  split
  · split
    · obtain ⟨t1, t2, t3⟩ := consensusDecision_meta preds p0 p1 _ _ _
      exact ⟨t1, t2, fun h => absurd h t3⟩
    · exact nonConsensusDecision_meta hist preds p0 p1
  · exact nonConsensusDecision_meta hist preds p0 p1

/-- Claim C7 (amended): on a nonempty roster every decision carries a nonempty
strategy tag; whenever a contributing array is present it lists one entry per
model of the roster (hence is nonempty); and the only decision without a
contributing array is the fallback-bias decision, which carries empty patterns,
the fallback strategy tag, and the fallback chosen-model marker. -/
theorem decision_metadata (Opt : Type) (models : List (MgrModel Opt))
    (hist : Option (List Event)) (o : Opt) (hm : models ≠ []) :
    (managerPredict 65 models hist o).logic ≠ "" ∧
    (∀ l, (managerPredict 65 models hist o).contributing = some l →
      l.length = models.length ∧ l ≠ []) ∧
    ((managerPredict 65 models hist o).contributing = none →
      (managerPredict 65 models hist o).patterns = [] ∧
      (managerPredict 65 models hist o).logic = sFallbackLogic ∧
      (managerPredict 65 models hist o).chosenModel = some sFallback) := by
  have hlen : (sortByScoreDesc (models.map (scorePred hist o))).length = models.length := by
    rw [length_sortByScoreDesc, List.length_map]
  unfold managerPredict
  rcases hl : sortByScoreDesc (models.map (scorePred hist o)) with _ | ⟨p0, _ | ⟨p1, rest⟩⟩
  · exfalso
    apply hm
    have h0 : models.length = 0 := by rw [← hlen, hl]; rfl
    exact List.eq_nil_of_length_eq_zero h0
  · have hm1 : models.length = 1 := by rw [← hlen, hl]; rfl
    refine ⟨append_colon_ne_empty _ _, ?_, ?_⟩
    · intro l hlq
      simp only [singleDecision, Option.some.injEq] at hlq
      constructor
      · rw [← hlq, hm1]
        rfl
      · rw [← hlq]
        simp
    · intro hnone
      simp [singleDecision] at hnone
  · have hm2 : models.length = rest.length + 2 := by rw [← hlen, hl]; rfl
    obtain ⟨f1, f2, f3, f4, f5⟩ :=
      floorDecision_fields 65 (managerFinal2 hist (p0 :: p1 :: rest) p0 p1)
    obtain ⟨g1, g2, g3⟩ := managerFinal2_meta hist (p0 :: p1 :: rest) p0 p1
    refine ⟨?_, ?_, ?_⟩
    · rw [f2]
      exact g1
    · intro l hlq
      rw [f5] at hlq
      have hli := g2 l hlq
      constructor
      · rw [hli, hm2]
        rfl
      · intro hnil
        rw [hnil] at hli
        simp at hli
    · intro hnone
      rw [f5] at hnone
      obtain ⟨a, b, c⟩ := g3 hnone
      exact ⟨f3.trans a, f2.trans b, f4.trans c⟩

/-- Witness for C7 on a concrete two-model roster. -/
theorem decision_metadata_witness :
    (([mA, mB] : List (MgrModel Unit)) ≠ []) ∧
    ((managerPredict 65 [mA, mB] (some hist4x1) ()).logic ≠ "" ∧
     (∀ l, (managerPredict 65 [mA, mB] (some hist4x1) ()).contributing = some l →
       l.length = ([mA, mB] : List (MgrModel Unit)).length ∧ l ≠ []) ∧
     ((managerPredict 65 [mA, mB] (some hist4x1) ()).contributing = none →
       (managerPredict 65 [mA, mB] (some hist4x1) ()).patterns = [] ∧
       (managerPredict 65 [mA, mB] (some hist4x1) ()).logic = sFallbackLogic ∧
       (managerPredict 65 [mA, mB] (some hist4x1) ()).chosenModel = some sFallback)) :=
  ⟨List.cons_ne_nil _ _,
   decision_metadata Unit [mA, mB] (some hist4x1) () (List.cons_ne_nil _ _)⟩

/-- Counterexample to C7 as stated: on the fallback-bias path the decision of
the manager carries no contributing array at all, so not every decision has a
nonempty contributor list. -/
theorem decision_metadata_counterexample :
    (managerPredict 65 [mA, mB] (some hist4x1) ()).contributing = none := by
  have hb : biasOf (some hist4x1) = 4/5 := by
    simp [biasOf, hist4x1, evBIG, evSMALL, sBIG, sSMALL, List.filter_cons, List.filter_nil]
  simp [managerPredict, sortByScoreDesc, insertDesc, scorePred, mA, mB, sigA70, sigB60,
    jsOr, managerFinal2, analyzePatternOverlap, calculateConsensusStrength,
    nonConsensusDecision, hb, fallbackDecision, floorDecision, jsRound,
    sBIG, sSMALL, neutralSignal, jsDedup, List.filter_cons, List.filter_nil,
    topDecision, sFallbackLogic, sFallback, sMA, sMB]
  norm_num

/-- Claim C4 (amended): with at least two models, when the consensus guard
fails, the top-two score gap is below 15 and the last-20 BIG bias exceeds 0.6,
the decision is category BIG with confidence
max(minConfidence, max(55, round(topConfidence - 10))) - the global floor of
65 applies on top of the fallback formula - and symmetrically SMALL when the
bias is below 0.4. -/
theorem fallback_bias_decision (Opt : Type) (models : List (MgrModel Opt))
    (hist : Option (List Event)) (o : Opt) (p0 p1 : ScoredPred Opt)
    (rest : List (ScoredPred Opt))
    (hsort : sortByScoreDesc (models.map (scorePred hist o)) = p0 :: p1 :: rest)
    (hnc : ∀ s, analyzePatternOverlap (p0 :: p1 :: rest) = some s →
      ¬(3/4 < (calculateConsensusStrength (p0 :: p1 :: rest)).agreement ∧ 3/5 < s))
    (hgap : p0.score - p1.score < 15) :
    (3/5 < biasOf hist →
      (managerPredict 65 models hist o).prediction = sBIG ∧
      (managerPredict 65 models hist o).confidence =
        max 65 (max 55 ((jsRound (p0.p.confidence - 10) : ℤ) : ℚ))) ∧
    (biasOf hist < 2/5 →
      (managerPredict 65 models hist o).prediction = sSMALL ∧
      (managerPredict 65 models hist o).confidence =
        max 65 (max 55 ((jsRound (p0.p.confidence - 10) : ℤ) : ℚ))) := by
  have hred : managerPredict 65 models hist o =
      floorDecision 65 (managerFinal2 hist (p0 :: p1 :: rest) p0 p1) := by
    unfold managerPredict
    rw [hsort]
  have hnc2 : managerFinal2 hist (p0 :: p1 :: rest) p0 p1 =
      nonConsensusDecision hist (p0 :: p1 :: rest) p0 p1 := by
    unfold managerFinal2
    cases hpo : analyzePatternOverlap (p0 :: p1 :: rest) with
    | none => rfl
    | some s => exact if_neg (hnc s hpo)
  constructor
  · intro hb
    have hncd : nonConsensusDecision hist (p0 :: p1 :: rest) p0 p1 =
        fallbackDecision sBIG p0.p.confidence := by
      unfold nonConsensusDecision
      rw [if_pos hgap, if_pos hb]
    rw [hred, hnc2, hncd]
    constructor
    · exact (floorDecision_fields _ _).1.trans rfl
    · rw [floorDecision_confidence]
      rfl
  · intro hb
    have hncd : nonConsensusDecision hist (p0 :: p1 :: rest) p0 p1 =
        fallbackDecision sSMALL p0.p.confidence := by
      unfold nonConsensusDecision
      rw [if_pos hgap, if_neg (by linarith), if_pos hb]
    rw [hred, hnc2, hncd]
    constructor
    · exact (floorDecision_fields _ _).1.trans rfl
    · rw [floorDecision_confidence]
      rfl

/-- Witness for C4 (amended) on the concrete two-model roster with bias 0.8. -/
theorem fallback_bias_decision_witness :
    ((3:ℚ)/5 < biasOf (some hist4x1)) ∧
    ((managerPredict 65 [mA, mB] (some hist4x1) ()).prediction = sBIG ∧
     (managerPredict 65 [mA, mB] (some hist4x1) ()).confidence =
       max 65 (max 55 ((jsRound ((70:ℚ) - 10) : ℤ) : ℚ))) := by
  have hb : biasOf (some hist4x1) = 4/5 := by
    simp [biasOf, hist4x1, evBIG, evSMALL, sBIG, sSMALL, List.filter_cons, List.filter_nil]
  have hsort : sortByScoreDesc (([mA, mB] : List (MgrModel Unit)).map
      (scorePred (some hist4x1) ())) = predA :: predB :: [] := by
    norm_num [sortByScoreDesc, insertDesc, scorePred, mA, mB, sigA70, sigB60, jsOr,
      predA, predB]
  refine ⟨by rw [hb]; norm_num, ?_⟩
  have h := (fallback_bias_decision Unit [mA, mB] (some hist4x1) () predA predB []
    hsort
    (by
      intro s hs
      simp [analyzePatternOverlap, predA, predB, sigA70, sigB60] at hs)
    (by norm_num [predA, predB])).1 (by rw [hb]; norm_num)
  exact h

/-- Counterexample to C4 as stated: on a predict call with gap below 15 and
bias 0.8, the decision category is BIG but its confidence is not
max(55, round(topConfidence - 10)) = 60; the minConfidence floor raises it
to 65. -/
theorem fallback_bias_claim_counterexample :
    (managerPredict 65 [mA, mB] (some hist4x1) ()).prediction = sBIG ∧
    (managerPredict 65 [mA, mB] (some hist4x1) ()).confidence ≠
      max 55 ((jsRound ((70:ℚ) - 10) : ℤ) : ℚ) := by
  have hb : biasOf (some hist4x1) = 4/5 := by
    simp [biasOf, hist4x1, evBIG, evSMALL, sBIG, sSMALL, List.filter_cons, List.filter_nil]
  constructor
  · simp [managerPredict, sortByScoreDesc, insertDesc, scorePred, mA, mB, sigA70, sigB60,
      jsOr, managerFinal2, analyzePatternOverlap, calculateConsensusStrength,
      nonConsensusDecision, hb, fallbackDecision, floorDecision, jsRound,
      sBIG, sSMALL, neutralSignal, jsDedup, List.filter_cons, List.filter_nil,
      topDecision, sFallbackLogic, sFallback, sMA, sMB]
    norm_num
  · have hc : (managerPredict 65 [mA, mB] (some hist4x1) ()).confidence = 65 := by
      simp [managerPredict, sortByScoreDesc, insertDesc, scorePred, mA, mB, sigA70, sigB60,
        jsOr, managerFinal2, analyzePatternOverlap, calculateConsensusStrength,
        nonConsensusDecision, hb, fallbackDecision, floorDecision, jsRound,
        sBIG, sSMALL, neutralSignal, jsDedup, List.filter_cons, List.filter_nil,
        topDecision, sFallbackLogic, sFallback, sMA, sMB]
      norm_num
    rw [hc]
    have hr : jsRound ((70:ℚ) - 10) = 60 := by
      norm_num [jsRound]
    rw [hr]
    norm_num

/-- Claim C6 (amended): on the consensus path (agreement above 0.75 and
overlap above 0.6 with at least two models) the decision confidence is
max(minConfidence, min(92, round(base * factor))), where base is the sum of
reliability-scaled confidences divided by the number of models - not a
reliability-normalized weighted mean - and
factor = min(1.3, 1 + agreement * 0.2 + overlap * 0.1). -/
theorem consensus_confidence_formula (Opt : Type) (models : List (MgrModel Opt))
    (hist : Option (List Event)) (o : Opt) (p0 p1 : ScoredPred Opt)
    (rest : List (ScoredPred Opt)) (s : ℚ)
    (hsort : sortByScoreDesc (models.map (scorePred hist o)) = p0 :: p1 :: rest)
    (hpo : analyzePatternOverlap (p0 :: p1 :: rest) = some s)
    (hag : 3/4 < (calculateConsensusStrength (p0 :: p1 :: rest)).agreement)
    (hs : 3/5 < s) :
    (managerPredict 65 models hist o).confidence =
      max 65 ((calculateEnhancedConfidence (p0 :: p1 :: rest)
        (calculateConsensusStrength (p0 :: p1 :: rest)).agreement s : ℤ) : ℚ) ∧
    calculateEnhancedConfidence (p0 :: p1 :: rest)
        (calculateConsensusStrength (p0 :: p1 :: rest)).agreement s =
      min 92 (jsRound (enhancedBase (p0 :: p1 :: rest) *
        enhanceFactor (calculateConsensusStrength (p0 :: p1 :: rest)).agreement s)) := by
  have hred : managerPredict 65 models hist o =
      floorDecision 65 (managerFinal2 hist (p0 :: p1 :: rest) p0 p1) := by
    unfold managerPredict
    rw [hsort]
  have hcons : managerFinal2 hist (p0 :: p1 :: rest) p0 p1 =
      consensusDecision (p0 :: p1 :: rest) p0 p1
        (calculateConsensusStrength (p0 :: p1 :: rest)).agreement s
        (calculateConsensusStrength (p0 :: p1 :: rest)).prediction := by
    unfold managerFinal2
    rw [hpo]
    exact if_pos ⟨hag, hs⟩
  constructor
  · rw [hred, hcons, floorDecision_confidence]
    rfl
  · rfl

/-- Witness for C6 (amended) on the concrete consensus roster. -/
theorem consensus_confidence_formula_witness :
    ((3:ℚ)/4 < (calculateConsensusStrength ([predC1, predC2] : List (ScoredPred Unit))).agreement) ∧
    ((3:ℚ)/5 < 2/3) ∧
    (managerPredict 65 [m1c, m2c] (some []) ()).confidence =
      max 65 ((calculateEnhancedConfidence ([predC1, predC2] : List (ScoredPred Unit))
        (calculateConsensusStrength ([predC1, predC2] : List (ScoredPred Unit))).agreement
        (2/3) : ℤ) : ℚ) := by
  have hsort : sortByScoreDesc (([m1c, m2c] : List (MgrModel Unit)).map
      (scorePred (some []) ())) = predC1 :: predC2 :: [] := by
    norm_num [sortByScoreDesc, insertDesc, scorePred, m1c, m2c, sig80a, sig80b, jsOr,
      predC1, predC2]
  have hpo : analyzePatternOverlap ([predC1, predC2] : List (ScoredPred Unit)) = some (2/3) := by
    simp [analyzePatternOverlap, predC1, predC2, sig80a, sig80b, jsDedup, sP]
    norm_num
  have hag : (3:ℚ)/4 < (calculateConsensusStrength
      ([predC1, predC2] : List (ScoredPred Unit))).agreement := by
    simp [calculateConsensusStrength, predC1, predC2, sig80a, sig80b, sBIG,
      List.filter_cons, List.filter_nil]
    norm_num
  exact ⟨hag, by norm_num,
    (consensus_confidence_formula Unit [m1c, m2c] (some []) () predC1 predC2 [] (2/3)
      hsort hpo hag (by norm_num)).1⟩

/-- Counterexample to C6 as stated: on a concrete consensus round the decision
confidence (65, after the floor on the count-averaged value 51) differs from
the reliability-weighted mean formula of the specification (92). -/
theorem consensus_confidence_counterexample :
    (managerPredict 65 [m1c, m2c] (some []) ()).confidence ≠
      specEnhancedConfidence ([predC1, predC2] : List (ScoredPred Unit))
        (calculateConsensusStrength ([predC1, predC2] : List (ScoredPred Unit))).agreement
        (2/3) := by
  have h1 : (managerPredict 65 [m1c, m2c] (some []) ()).confidence = 65 := by
    simp [managerPredict, sortByScoreDesc, insertDesc, scorePred, m1c, m2c, sig80a, sig80b,
      jsOr, managerFinal2, analyzePatternOverlap, calculateConsensusStrength,
      consensusDecision, calculateEnhancedConfidence, enhancedBase, enhanceFactor,
      relLookup, floorDecision, jsRound, jsDedup, sBIG, sSMALL, sP, sM1, sM2,
      List.filter_cons, List.filter_nil]
    norm_num [Int.floor_eq_iff]
  have h2 : specEnhancedConfidence ([predC1, predC2] : List (ScoredPred Unit))
      (calculateConsensusStrength ([predC1, predC2] : List (ScoredPred Unit))).agreement
      (2/3) = 92 := by
    simp [specEnhancedConfidence, calculateConsensusStrength, enhanceFactor, relLookup,
      predC1, predC2, sig80a, sig80b, m1c, m2c, jsOr, jsRound, sBIG, sP, sM1, sM2,
      List.filter_cons, List.filter_nil]
    norm_num [Int.floor_eq_iff]
  rw [h1, h2]
  norm_num

/-- A rational list divided termwise by a constant sums to the divided sum. -/
theorem sum_map_div (l : List ℚ) (d : ℚ) : (l.map (fun x => x / d)).sum = l.sum / d := by
  induction l with
  | nil => simp
  | cons a m ih => simp [ih, add_div]

/-- A contribution score term is nonnegative when weight and confidence are. -/
theorem contribTerm_nonneg (c : Contrib) (hw : 0 ≤ c.weight) (hc : 0 ≤ c.confidence) :
    0 ≤ contribTerm c := by
  unfold contribTerm jsOr
  apply mul_nonneg
  · split
    · norm_num
    · exact hw
  · split
    · norm_num
    · exact hc

/-- Every entry produced by the learnMultiple fold carries a learning rate of
the form lrOf for some contribution of the processed list. -/
theorem lm_fold_entries (pow : ℚ → ℚ → ℚ) (wasWin : Bool) (cs : List Contrib) (streak : ℕ)
    (cl : List Contrib) :
    ∀ (st : List LearnState × List LMEntry),
      (∀ c ∈ cl, c ∈ cs) →
      (∀ e ∈ st.2, ∃ c ∈ cs, e.lr = lrOf cs streak c) →
      ∀ e ∈ (cl.foldl (lmStep pow wasWin cs streak) st).2,
        ∃ c ∈ cs, e.lr = lrOf cs streak c := by
  induction cl with
  | nil =>
    intro st _ hst e he
    exact hst e he
  | cons c cl ih =>
    intro st hsub hst e he
    rw [List.foldl_cons] at he
    refine ih _ (fun c2 hc2 => hsub c2 (List.mem_cons_of_mem _ hc2)) ?_ e he
    intro e2 he2
    unfold lmStep at he2
    cases hfind : st.1.find? (fun m => idOrName m = c.id) with
    | none =>
      rw [hfind] at he2
      exact hst e2 he2
    | some m =>
      rw [hfind] at he2
      rcases List.mem_append.mp he2 with h | h
      · exact hst e2 h
      · have he3 := List.mem_singleton.mp h
        exact ⟨c, hsub c (List.mem_cons_self _ _), by rw [he3]⟩

/-- Claim C5: in learnMultiple with nonzero raw total and nonnegative weights
and confidences, the shares sum to exactly one, every per-contributor rate is
baseLR * (0.2 + 0.8 * share) and is at least 20 percent of the base rate, and
every applied rate recorded in the results array is of that form. -/
theorem credit_share_conservation (cs : List Contrib) (streak : ℕ)
    (hnz : rawTotal cs ≠ 0)
    (hpos : ∀ c ∈ cs, 0 ≤ c.weight ∧ 0 ≤ c.confidence) :
    ((cs.map (shareOf cs)).sum = 1) ∧
    (∀ c ∈ cs, lrOf cs streak c = baseLR streak * (1/5 + (4/5) * shareOf cs c) ∧
      (1/5) * baseLR streak ≤ lrOf cs streak c) ∧
    (∀ (pow : ℚ → ℚ → ℚ) (wasWin : Bool) (ms : List LearnState)
        (out : List LearnState × List LMEntry),
      learnMultiple pow ms cs wasWin streak = some out →
      ∀ e ∈ out.2, ∃ c ∈ cs, e.lr = lrOf cs streak c) := by
  have hT : totalScore cs = rawTotal cs := by
    unfold totalScore jsOr
    rw [if_neg hnz]
  have htermpos : ∀ c ∈ cs, 0 ≤ contribTerm c := fun c hc =>
    contribTerm_nonneg c (hpos c hc).1 (hpos c hc).2
  have hsumpos : 0 < rawTotal cs := by
    rcases lt_or_eq_of_le (List.sum_nonneg (fun x hx => by
      rcases List.mem_map.mp hx with ⟨c, hc, hxc⟩
      rw [← hxc]
      exact htermpos c hc)) with h | h
    · exact h
    · exact absurd h.symm hnz
  refine ⟨?_, ?_, ?_⟩
  · have hmm : cs.map (shareOf cs) = (cs.map contribTerm).map (fun x => x / totalScore cs) := by
      rw [List.map_map]
      rfl
    rw [hmm, sum_map_div, hT]
    exact div_self hnz
  · intro c hc
    refine ⟨rfl, ?_⟩
    have hshare : 0 ≤ shareOf cs c := by
      unfold shareOf
      rw [hT]
      exact div_nonneg (htermpos c hc) (le_of_lt hsumpos)
    have hbase : 0 ≤ baseLR streak := by
      unfold baseLR
      have : (0:ℚ) ≤ min 3 ((streak : ℚ) * (2/5)) :=
        le_min (by norm_num) (by positivity)
      linarith
    calc (1:ℚ)/5 * baseLR streak = baseLR streak * (1/5) := mul_comm _ _
      _ ≤ baseLR streak * (1/5 + (4/5) * shareOf cs c) := by
          apply mul_le_mul_of_nonneg_left _ hbase
          nlinarith
      _ = lrOf cs streak c := rfl
  · intro pow wasWin ms out hlm e he
    unfold learnMultiple at hlm
    split at hlm
    · exact absurd hlm (by simp)
    · have hout := Option.some.inj hlm
      rw [← hout] at he
      exact lm_fold_entries pow wasWin cs streak cs (ms, []) (fun c hc => hc)
        (fun e2 he2 => absurd he2 (by simp)) e he

/-- Witness for C5 on a single contribution of weight 1 and confidence 70. -/
theorem credit_share_conservation_witness :
    (rawTotal [(⟨sMA, 1, 70⟩ : Contrib)] ≠ 0 ∧
     ∀ c ∈ [(⟨sMA, 1, 70⟩ : Contrib)], 0 ≤ c.weight ∧ 0 ≤ c.confidence) ∧
    (([(⟨sMA, 1, 70⟩ : Contrib)].map (shareOf [(⟨sMA, 1, 70⟩ : Contrib)])).sum = 1) := by
  have h1 : rawTotal [(⟨sMA, 1, 70⟩ : Contrib)] ≠ 0 := by
    norm_num [rawTotal, contribTerm, jsOr]
  have h2 : ∀ c ∈ [(⟨sMA, 1, 70⟩ : Contrib)], 0 ≤ c.weight ∧ 0 ≤ c.confidence := by
    intro c hc
    rcases List.mem_singleton.mp hc with rfl
    norm_num
  exact ⟨⟨h1, h2⟩, (credit_share_conservation [(⟨sMA, 1, 70⟩ : Contrib)] 0 h1 h2).1⟩

/-- Claim C8 (amended): the manager-level scoring step never propagates a
model fault: a predict that throws or returns a nullish value is replaced by
the neutral signal BIG/50 with score 50 * (weight or 1), and the round
completes with the model untouched. -/
theorem neutral_on_provider_fault (Opt : Type) (hist : Option (List Event)) (o : Opt)
    (m : MgrModel Opt)
    (h : m.predictFn hist o = Except.error () ∨ m.predictFn hist o = Except.ok none) :
    (scorePred hist o m).p = neutralSignal ∧
    (scorePred hist o m).score = 50 * jsOr m.weight 1 ∧
    (scorePred hist o m).model = m := by
  unfold scorePred
  rcases h with h | h <;> rw [h]
  · exact ⟨rfl, rfl, rfl⟩
  · refine ⟨rfl, ?_, rfl⟩
    simp [neutralSignal, jsOr]

/-- Witness for C8 (amended) on the always-throwing model. -/
theorem neutral_on_provider_fault_witness :
    (mThrow.predictFn (some []) () = Except.error () ∨
     mThrow.predictFn (some []) () = Except.ok none) ∧
    ((scorePred (some []) () mThrow).p = neutralSignal ∧
     (scorePred (some []) () mThrow).score = 50 * jsOr mThrow.weight 1 ∧
     (scorePred (some []) () mThrow).model = mThrow) :=
  ⟨Or.inl rfl, neutral_on_provider_fault Unit (some []) () mThrow (Or.inl rfl)⟩

/-- Counterexample to C8 as stated: on insufficient input (an empty history)
KBTModel.predict returns its own documented fallback with confidence 60, not
the neutral signal with confidence 50 claimed by the specification. -/
theorem insufficient_input_counterexample :
    (kbtPredict bodySample kbtInit (some ([] : List Event)) ()).sig.confidence = 60 ∧
    (kbtPredict bodySample kbtInit (some ([] : List Event)) ()).sig.confidence ≠ 50 := by
  constructor
  · rfl
  · norm_num [kbtPredict, enhancedTrendAnalysis, kbtFallbackSignal]

/-- Claim C10: KBTModel.learn and AIModel.learn are extensionally equal state
updates when called with an options object carrying a numeric lr: same prior
state, same arguments, same successor state and same returned record. -/
theorem learn_functions_agree (pow : ℚ → ℚ → ℚ) (st : LearnState) (wasWin : Bool) (lr : ℚ) :
    kbtLearn pow st wasWin (some lr) = aiLearn pow st wasWin (some (some lr)) := rfl

/-- Claim C9 (amended): predict mutates no model state and, at a fixed
ambient clock, is deterministic: the state transition returns the model list
unchanged, a second call observing the same clock value yields the identical
decision, and a roster of clock-independent providers yields identical
decisions across any two instants.  The unconditional identical-decisions
half of the claim fails on the code: see the counterexample, where a missing
createTime routes the ambient clock into the decision. -/
theorem predict_idempotent_clocked (Opt : Type) (models : List (MgrModelT Opt))
    (hist : Option (List Event)) (o : Opt) (now : ℕ) :
    (managerPredictST 65 models hist o now).2 = models ∧
    (managerPredictST 65 (managerPredictST 65 models hist o now).2 hist o now).1 =
      (managerPredictST 65 models hist o now).1 ∧
    ((∀ m ∈ models, ∀ (h : Option (List Event)) (oo : Opt) (n1 n2 : ℕ),
        m.predictFn h oo n1 = m.predictFn h oo n2) →
      ∀ n1 n2 : ℕ, managerPredictT 65 models hist o n1 = managerPredictT 65 models hist o n2) := by
  refine ⟨rfl, rfl, ?_⟩
  intro hcl n1 n2
  unfold managerPredictT
  have hmap : models.map (atClock n1) = models.map (atClock n2) := by
    apply List.map_congr_left
    intro m hm
    unfold atClock
    congr 1
    funext h2 o2
    exact hcl m hm h2 o2 n1 n2
  rw [hmap]

/-- Witness for C9 (amended): a clock-ignoring roster at two instants. -/
theorem predict_idempotent_clocked_witness :
    ((managerPredictST 65 [mAT] (some hist4x1) () 5).2 = [mAT]) ∧
    (∀ m ∈ ([mAT] : List (MgrModelT Unit)), ∀ (h : Option (List Event)) (oo : Unit) (n1 n2 : ℕ),
        m.predictFn h oo n1 = m.predictFn h oo n2) ∧
    managerPredictT 65 [mAT] (some hist4x1) () 0 = managerPredictT 65 [mAT] (some hist4x1) () 1 := by
  have hcl : ∀ m ∈ ([mAT] : List (MgrModelT Unit)), ∀ (h : Option (List Event)) (oo : Unit) (n1 n2 : ℕ),
      m.predictFn h oo n1 = m.predictFn h oo n2 := by
    intro m hm h oo n1 n2
    rcases List.mem_singleton.mp hm with rfl
    rfl
  exact ⟨(predict_idempotent_clocked Unit [mAT] (some hist4x1) () 5).1, hcl,
    (predict_idempotent_clocked Unit [mAT] (some hist4x1) () 5).2.2 hcl 0 1⟩

/-- Counterexample to C9 as stated: with a missing createTime, the timing
stability of prediction_helpers.js lines 52-65 differs between two call
instants (1/2 at clock 2000, 1 at clock 3000) on the same history, and two
predict calls with identical history and options then return different
decisions (confidence 70 versus 90). -/
theorem predict_clock_counterexample :
    analyzeTimingStability sqrtSample histTiming 2000 ≠
      analyzeTimingStability sqrtSample histTiming 3000 ∧
    managerPredictT 65 [mTiming] (some histTiming) () 2000 ≠
      managerPredictT 65 [mTiming] (some histTiming) () 3000 := by
  have hs1 : analyzeTimingStability sqrtSample histTiming 2000 = some (1/2) := by
    simp [analyzeTimingStability, timingIntervals, jsGetTime, sqrtSample, histTiming,
      evT1000, evTNone, evT5000]
    norm_num
  have hs2 : analyzeTimingStability sqrtSample histTiming 3000 = some 1 := by
    simp [analyzeTimingStability, timingIntervals, jsGetTime, sqrtSample, histTiming,
      evT1000, evTNone, evT5000]
    norm_num
  have hc1 : (managerPredictT 65 [mTiming] (some histTiming) () 2000).confidence = 70 := by
    simp [managerPredictT, atClock, managerPredict, sortByScoreDesc, insertDesc, scorePred,
      mTiming, singleDecision, jsOr, hs1]
    norm_num
  have hc2 : (managerPredictT 65 [mTiming] (some histTiming) () 3000).confidence = 90 := by
    simp [managerPredictT, atClock, managerPredict, sortByScoreDesc, insertDesc, scorePred,
      mTiming, singleDecision, jsOr, hs2]
    norm_num
  constructor
  · rw [hs1, hs2]
    norm_num
  · intro h
    have hcc := congrArg Decision.confidence h
    rw [hc1, hc2] at hcc
    norm_num at hcc
